import Mathlib

/-!
Verification of the field-detection-and-matching engine of the FormFiller
browser extension.  The definitions below are a shallow embedding of the
TypeScript sources: the `FieldDetector` class (detectFields,
detectFieldsInElement, createDetectedField, determineFieldType,
findLabelForElement) and the `FormFiller` class (findBestMapping,
fillInputField, fillTextareaField, fillSelectField, fillToggleField,
fillField, fillForms).  The DOM is modelled as a tree of nodes; JavaScript
string operations (toLowerCase, includes, trim, replace-first, join) are
modelled on the underlying character lists.
-/

namespace FormFiller

/-! ## JavaScript string primitives -/

/-- Character-list test: does the second list start with the first. -/
def startsWith : List Char → List Char → Bool
  | [], _ => true
  | _ :: _, [] => false
  | a :: as, b :: bs => a == b && startsWith as bs

/-- Character-list test: does the second argument occur inside the first
argument.  Models substring search. -/
def charsContains (pat : List Char) : List Char → Bool
  | [] => startsWith pat []
  | c :: t => startsWith pat (c :: t) || charsContains pat t

/-- Models the JavaScript expression s.includes(sub). -/
def strIncludes (s sub : String) : Bool := charsContains sub.data s.data

/-- Replace the first occurrence of pat inside the third argument by repl.
Models the JavaScript expression s.replace(pat, repl) with a plain string
pattern, which only rewrites the first occurrence. -/
def charsReplaceFirst (pat repl : List Char) : List Char → List Char
  | [] => if startsWith pat [] then repl else []
  | c :: t =>
    if startsWith pat (c :: t) then repl ++ (c :: t).drop pat.length
    else c :: charsReplaceFirst pat repl t

/-- Models the JavaScript expression s.replace(pat, repl) for string pat. -/
def strReplaceFirst (s pat repl : String) : String :=
  String.mk (charsReplaceFirst pat.data repl.data s.data)

/-- Models the JavaScript expression s.toLowerCase() (ASCII letters). -/
def strLower (s : String) : String := String.mk (s.data.map Char.toLower)

/-- Drop leading and trailing whitespace from a character list. -/
def trimChars (l : List Char) : List Char :=
  ((l.dropWhile Char.isWhitespace).reverse.dropWhile Char.isWhitespace).reverse

/-- Models the JavaScript expression s.trim(). -/
def strTrim (s : String) : String := String.mk (trimChars s.data)

/-- Models the JavaScript expression arr.join(" "). -/
def joinWithSpace : List String → String
  | [] => ""
  | [s] => s
  | s :: rest => s ++ " " ++ joinWithSpace rest

/-! ## Data model: field types, mappings, DOM nodes, detected fields -/

/-- The FieldType enumeration from src/utils/types.ts. -/
inductive FieldType where
  | TEXT | EMAIL | PASSWORD | TELEPHONE | NUMBER | DATE | TEXTAREA | SELECT
  | CHECKBOX | RADIO | URL | SEARCH | COLOR | RANGE | FILE | MONTH | WEEK
  | TIME | DATETIME | UNKNOWN
deriving DecidableEq, Repr

/-- The value carried by a field mapping: a string, a boolean (checkbox and
radio), or a list of candidate strings (select). -/
inductive MappingValue where
  | str (s : String)
  | boolean (b : Bool)
  | list (l : List String)
deriving DecidableEq, Repr

/-- The FieldMapping interface from src/utils/types.ts.  Optional members of
the TypeScript interface become Option; an absent member is none. -/
structure FieldMapping where
  id : Option String
  name : Option String
  type : Option FieldType
  keywords : Option (List String)
  value : MappingValue
deriving DecidableEq, Repr

/-- A DOM node: an element with a tag name, an ordered attribute list and
child nodes, or a text node. -/
inductive Node where
  | elem (tag : String) (attrs : List (String × String)) (children : List Node)
  | text (s : String)

/-- Tag name of a node (empty for text nodes). -/
def Node.tag : Node → String
  | .elem t _ _ => t
  | .text _ => ""

/-- Attribute list of a node (empty for text nodes). -/
def Node.attrs : Node → List (String × String)
  | .elem _ a _ => a
  | .text _ => []

/-- Children of a node (empty for text nodes). -/
def Node.children : Node → List Node
  | .elem _ _ cs => cs
  | .text _ => []

/-- Models element.getAttribute(name): some value when present, none when
absent (JavaScript returns null). -/
def getAttribute (n : Node) (name : String) : Option String :=
  (n.attrs.find? (fun p => decide (p.1 = name))).map (fun p => p.2)

/-- Models element.hasAttribute(name). -/
def hasAttribute (n : Node) (name : String) : Bool :=
  (getAttribute n name).isSome

/-- Lowercased tag name, as in element.tagName.toLowerCase(). -/
def tagLower (n : Node) : String := strLower n.tag

mutual

/-- Models element.textContent: concatenation of all descendant text. -/
def Node.textContent : Node → String
  | .text s => s
  | .elem _ _ cs => textContentList cs

/-- Concatenated text content of a list of nodes. -/
def textContentList : List Node → String
  | [] => ""
  | c :: cs => Node.textContent c ++ textContentList cs

end

mutual

/-- All elements of a subtree in document (pre-)order, each paired with its
ancestor chain (nearest ancestor first).  Text nodes are not elements. -/
def collectElems : Node → List Node → List (Node × List Node)
  | Node.elem t a cs, anc =>
    (Node.elem t a cs, anc) :: collectElemsList cs (Node.elem t a cs :: anc)
  | Node.text _, _ => []

/-- Elements of a forest in document order, with ancestor chains. -/
def collectElemsList : List Node → List Node → List (Node × List Node)
  | [], _ => []
  | c :: cs, anc => collectElems c anc ++ collectElemsList cs anc

end

/-- A document, modelled by its body element. -/
structure Document where
  root : Node

/-- All elements of the document with their ancestor chains, in document
order.  Models document-wide queries. -/
def Document.allElems (doc : Document) : List (Node × List Node) :=
  collectElems doc.root []

/-- Models document.querySelector("label[for=idv]"): the first label element
whose for attribute equals idv. -/
def findLabelFor (doc : Document) (idv : String) : Option Node :=
  ((doc.allElems.find? (fun p =>
    decide (tagLower p.1 = "label" ∧ getAttribute p.1 "for" = some idv))).map
    (fun p => p.1))

/-- Models document.getElementById. -/
def getElementById (doc : Document) (idv : String) : Option Node :=
  ((doc.allElems.find? (fun p =>
    decide (getAttribute p.1 "id" = some idv))).map (fun p => p.1))

/-- The DetectedField record produced by the detector (src DetectedField
interface).  label is optional exactly as in the source; placeholder is
always a string there (getAttribute with a default of the empty string). -/
structure DetectedField where
  id : String
  name : String
  type : FieldType
  element : Node
  label : Option String
  placeholder : String
  attributes : List (String × String)

/-- JavaScript truthiness of an optional string: undefined and the empty
string are both falsy. -/
def optFalsy (o : Option String) : Bool :=
  match o with
  | none => true
  | some s => decide (s = "")

/-- JavaScript truthiness, positively. -/
def optTruthy (o : Option String) : Bool := !(optFalsy o)

/-! ## FieldDetector -/

/-- The exclusion test at the top of createDetectedField: type attribute
equal to hidden, submit, button, image or reset, or a disabled attribute. -/
def isExcluded (e : Node) : Bool :=
  decide (getAttribute e "type" = some "hidden") ||
  decide (getAttribute e "type" = some "submit") ||
  decide (getAttribute e "type" = some "button") ||
  decide (getAttribute e "type" = some "image") ||
  decide (getAttribute e "type" = some "reset") ||
  hasAttribute e "disabled"

/-- The case labels of the switch over the type attribute of a native
input element inside determineFieldType. -/
def inputTypeTable : List (String × FieldType) :=
  [("text", FieldType.TEXT), ("email", FieldType.EMAIL),
   ("password", FieldType.PASSWORD), ("tel", FieldType.TELEPHONE),
   ("number", FieldType.NUMBER), ("date", FieldType.DATE),
   ("checkbox", FieldType.CHECKBOX), ("radio", FieldType.RADIO),
   ("url", FieldType.URL), ("search", FieldType.SEARCH),
   ("color", FieldType.COLOR), ("range", FieldType.RANGE),
   ("file", FieldType.FILE), ("month", FieldType.MONTH),
   ("week", FieldType.WEEK), ("time", FieldType.TIME),
   ("datetime-local", FieldType.DATETIME)]

/-- The switch itself: a missing attribute (JavaScript null) and every
unrecognized value fall through to the default TEXT. -/
def inputTypeOf : Option String → FieldType
  | none => FieldType.TEXT
  | some t =>
    ((inputTypeTable.find? (fun p => decide (p.1 = t))).map
      (fun p => p.2)).getD FieldType.TEXT

/-- FieldDetector.determineFieldType: textarea and select by tag, native
inputs by their type attribute with a default of TEXT, anything else
UNKNOWN. -/
def determineFieldType (e : Node) : FieldType :=
  if tagLower e = "textarea" then FieldType.TEXTAREA
  else if tagLower e = "select" then FieldType.SELECT
  else if tagLower e = "input" then inputTypeOf (getAttribute e "type")
  else FieldType.UNKNOWN

/-- Assignment into a JavaScript record: overwrite an existing key or append
a new one. -/
def setRecord (attrs : List (String × String)) (k v : String) :
    List (String × String) :=
  if attrs.any (fun p => decide (p.1 = k)) then
    attrs.map (fun p => if p.1 = k then (k, v) else p)
  else attrs ++ [(k, v)]

/-- Record lookup: value of the first pair with the given key. -/
def lookupRecord (attrs : List (String × String)) (k : String) :
    Option String :=
  (attrs.find? (fun p => decide (p.1 = k))).map (fun p => p.2)

/-- FieldDetector.findLabelForElement: four methods tried in order, each
only when the previous ones produced falsy text.  ancestors is the element
parent chain, nearest first. -/
def findLabelForElement (doc : Document) (element : Node)
    (ancestors : List Node) : Option String :=
  let idv := getAttribute element "id"
  let l1 : Option String :=
    match idv with
    | some i =>
      if i ≠ "" then (findLabelFor doc i).map (fun l => strTrim l.textContent)
      else none
    | none => none
  let l2 : Option String :=
    if optTruthy l1 then l1
    else
      match ancestors.find? (fun p => decide (tagLower p = "label")) with
      | some parent =>
        let lt := strTrim parent.textContent
        let et := strTrim element.textContent
        some (if lt ≠ "" ∧ et ≠ "" then strTrim (strReplaceFirst lt et "") else lt)
      | none => l1
  let l3 : Option String :=
    if optTruthy l2 then l2
    else
      match getAttribute element "aria-label" with
      | some v => if v ≠ "" then some v else none
      | none => none
  if optTruthy l3 then l3
  else
    match getAttribute element "aria-labelledby" with
    | some lb =>
      if lb ≠ "" then
        match getElementById doc lb with
        | some le => some (strTrim le.textContent)
        | none => l3
      else l3
    | none => l3

/-- FieldDetector.createDetectedField: excluded elements and elements with
no id, name or placeholder yield none; otherwise a DetectedField snapshot
is built. -/
def createDetectedField (doc : Document) (element : Node)
    (ancestors : List Node) : Option DetectedField :=
  if isExcluded element then none
  else
    let idv := (getAttribute element "id").getD ""
    let namev := (getAttribute element "name").getD ""
    let placeholder := (getAttribute element "placeholder").getD ""
    if idv = "" ∧ namev = "" ∧ placeholder = "" then none
    else
      let type := determineFieldType element
      let label := findLabelForElement doc element ancestors
      let attributes :=
        element.attrs.foldl (fun acc p => setRecord acc p.1 p.2) []
      let attributes :=
        if decide (getAttribute element "autocomplete" = some "off") ||
           hasAttribute element "readonly" ||
           decide (getAttribute element "role" = some "combobox") then
          setRecord attributes "isAutoComplete" "true"
        else attributes
      some { id := idv, name := namev, type := type, element := element,
             label := label, placeholder := placeholder,
             attributes := attributes }

/-- The tag filter of querySelectorAll("input, select, textarea"). -/
def fillableTag (n : Node) : Bool :=
  decide (tagLower n = "input" ∨ tagLower n = "select" ∨ tagLower n = "textarea")

/-- One step of the forEach in detectFieldsInElement: push the detected
field when the conversion produced one. -/
def pushDetected (g : α → Option β) (acc : List β) (x : α) : List β :=
  match g x with
  | some b => acc ++ [b]
  | none => acc

/-- FieldDetector.detectFieldsInElement: all matching descendants of the
element, pushed into the result list when createDetectedField succeeds. -/
def detectFieldsInElement (doc : Document) (element : Node)
    (ancestors : List Node) : List DetectedField :=
  ((collectElemsList element.children (element :: ancestors)).filter
      (fun p => fillableTag p.1)).foldl
    (pushDetected (fun p => createDetectedField doc p.1 p.2)) []

/-- FieldDetector.detectFields: scan every form element, and when that
produced zero detected fields, scan the whole body directly. -/
def detectFields (doc : Document) : List DetectedField :=
  let forms := doc.allElems.filter (fun p => decide (tagLower p.1 = "form"))
  let detected :=
    forms.foldl (fun acc p => acc ++ detectFieldsInElement doc p.1 p.2) []
  if detected.length = 0 then
    detected ++ detectFieldsInElement doc doc.root []
  else detected

/-! ## FormFiller.findBestMapping -/

/-- The keyword bag built in tier 3 of findBestMapping: lowercased label,
placeholder, the title, alt, aria-label and data-label attribute values,
and the name, each included only when truthy, in that order. -/
def mappingBag (field : DetectedField) : List String :=
  (match field.label with
   | some l => if l ≠ "" then [strLower l] else []
   | none => []) ++
  (if field.placeholder ≠ "" then [strLower field.placeholder] else []) ++
  (["title", "alt", "aria-label", "data-label"].foldl
    (fun acc attr =>
      match lookupRecord field.attributes attr with
      | some v => if v ≠ "" then acc ++ [strLower v] else acc
      | none => acc) []) ++
  (if field.name ≠ "" then [strLower field.name] else [])

/-- The tier-3 score loop of findBestMapping: for every mapping keyword and
every bag entry, one point when the entry contains the lowercased keyword
as a substring, and one further point when the entry equals it. -/
def keywordScore (bag : List String) (kws : List String) : Nat :=
  kws.foldl (fun acc kw =>
    let k := strLower kw
    bag.foldl (fun acc2 e =>
      if strIncludes e k then (if e = k then acc2 + 2 else acc2 + 1) else acc2)
      acc) 0

/-- Tier-3 score of one mapping; a mapping without keywords is skipped by
the loop, which is the same as scoring zero. -/
def mappingScore (bag : List String) (m : FieldMapping) : Nat :=
  match m.keywords with
  | none => 0
  | some kws => keywordScore bag kws

/-- The bestMatch/bestMatchScore accumulator loop of tiers 3 and 4: a
candidate replaces the current best only when its score is strictly
greater. -/
def bestFold (sc : FieldMapping → Nat) :
    List FieldMapping → Option FieldMapping × Nat → Option FieldMapping × Nat
  | [], acc => acc
  | m :: ms, acc =>
    if acc.2 < sc m then bestFold sc ms (some m, sc m) else bestFold sc ms acc

/-- Result of the accumulator loop started from no best match and score
zero. -/
def bestByScore (sc : FieldMapping → Nat) (ms : List FieldMapping) :
    Option FieldMapping :=
  (bestFold sc ms (none, 0)).1

/-- The tier-4 concatenated text: label, placeholder, name and every
attribute value, truthy entries only, joined with spaces and lowercased. -/
def fieldText (field : DetectedField) : String :=
  strLower (joinWithSpace
    (((match field.label with | some l => [l] | none => []) ++
      [field.placeholder, field.name] ++
      field.attributes.map (fun p => p.2)).filter (fun s => decide (s ≠ ""))))

/-- Tier-4 score of one mapping: one point per keyword contained in the
concatenated field text. -/
def tier4Score (ftext : String) (m : FieldMapping) : Nat :=
  match m.keywords with
  | none => 0
  | some kws =>
    kws.foldl (fun acc kw =>
      if strIncludes ftext (strLower kw) then acc + 1 else acc) 0

/-- Truthiness of the keywords member combined with a nonempty length
check, as in the tier-4 filter. -/
def kwNonEmpty (o : Option (List String)) : Bool :=
  match o with
  | none => false
  | some l => decide (l ≠ [])

/-- The tier-3 candidate set: mappings with falsy id and name whose type
equals the type of the field. -/
def typeMatches (mappings : List FieldMapping) (field : DetectedField) :
    List FieldMapping :=
  mappings.filter (fun m =>
    optFalsy m.id && optFalsy m.name && decide (m.type = some field.type))

/-- Tier 1 of findBestMapping: the first mapping whose id equals the id of
the field, considered only when the field id is truthy. -/
def idTierMatch (mappings : List FieldMapping) (field : DetectedField) :
    Option FieldMapping :=
  if field.id ≠ "" then
    mappings.find? (fun m => decide (m.id = some field.id))
  else none

/-- Tier 2 of findBestMapping: the first mapping whose name equals the name
of the field, considered only when the field name is truthy. -/
def nameTierMatch (mappings : List FieldMapping) (field : DetectedField) :
    Option FieldMapping :=
  if field.name ≠ "" then
    mappings.find? (fun m => decide (m.name = some field.name))
  else none

/-- FormFiller.findBestMapping: five tiers tried in order.  Identity by id,
identity by name, type plus keyword score, keyword-only score, and a plain
type fallback. -/
def findBestMapping (mappings : List FieldMapping) (field : DetectedField) :
    Option FieldMapping :=
  match idTierMatch mappings field with
  | some m => some m
  | none =>
  match nameTierMatch mappings field with
  | some m => some m
  | none =>
  let tm := typeMatches mappings field
  match (if 0 < tm.length then bestByScore (mappingScore (mappingBag field)) tm
         else none) with
  | some m => some m
  | none =>
  let km := mappings.filter (fun m =>
    optFalsy m.id && optFalsy m.name && kwNonEmpty m.keywords)
  match (if 0 < km.length ∧
            (optTruthy field.label ∨ field.placeholder ≠ "" ∨ field.name ≠ "")
         then bestByScore (tier4Score (fieldText field)) km
         else none) with
  | some m => some m
  | none => mappings.find? (fun m => decide (m.type = some field.type))

/-! ## FormFiller fill operations

The runtime state of an element that filling reads and writes is modelled
explicitly; a fill operation returns the new state, the list of events it
dispatched (in order), and the boolean the source method returns. -/

/-- Runtime state of an input or textarea element. -/
structure InputState where
  value : String
  checked : Bool
  readOnly : Bool
  disabled : Bool
deriving DecidableEq, Repr

/-- One option of a select element. -/
structure SelectOption where
  value : String
  text : String
deriving DecidableEq, Repr

/-- Runtime state of a select element.  selectedIndex is an integer since
the DOM uses -1 for no selection. -/
structure SelectState where
  options : List SelectOption
  selectedIndex : Int
  disabled : Bool
deriving DecidableEq, Repr

/-- FormFiller.fillInputField: skip read-only and disabled inputs, else set
the value and dispatch input then change. -/
def fillInputField (input : InputState) (value : String) :
    InputState × List String × Bool :=
  if input.readOnly || input.disabled then (input, [], false)
  else ({ input with value := value }, ["input", "change"], true)

/-- FormFiller.fillTextareaField: same behaviour as fillInputField. -/
def fillTextareaField (textarea : InputState) (value : String) :
    InputState × List String × Bool :=
  if textarea.readOnly || textarea.disabled then (textarea, [], false)
  else ({ textarea with value := value }, ["input", "change"], true)

/-- The value handed to fillSelectField is a single string or an array of
candidate strings; this is the Array.isArray conversion. -/
def possibleValuesOf (v : String ⊕ List String) : List String :=
  match v with
  | Sum.inl s => [s]
  | Sum.inr l => l

/-- Exact pass predicate: option value or text, lowercased, equals some
candidate, lowercased. -/
def optionExactMatch (vals : List String) (o : SelectOption) : Bool :=
  vals.any (fun v =>
    decide (strLower o.value = strLower v) || decide (strLower o.text = strLower v))

/-- Substring pass predicate: option value or text contains some candidate
as a substring (all lowercased). -/
def optionSubMatch (vals : List String) (o : SelectOption) : Bool :=
  vals.any (fun v =>
    strIncludes (strLower o.value) (strLower v) ||
    strIncludes (strLower o.text) (strLower v))

/-- Index selected by the exact pass: the first option matching any
candidate. -/
def exactIdx (sel : SelectState) (vals : List String) : Option Nat :=
  sel.options.findIdx? (optionExactMatch vals)

/-- Index selected by the substring pass. -/
def subIdx (sel : SelectState) (vals : List String) : Option Nat :=
  sel.options.findIdx? (optionSubMatch vals)

/-- Placeholder test on the first option: empty value, or text containing
select or choose (lowercased). -/
def firstIsPlaceholder (sel : SelectState) : Bool :=
  match sel.options with
  | [] => false
  | o :: _ =>
    decide (o.value = "") || strIncludes (strLower o.text) "select" ||
    strIncludes (strLower o.text) "choose"

/-- FormFiller.fillSelectField: exact pass, then substring pass, then the
placeholder-skip fallback guarded by selectedIndex at most zero and more
than one option; a change event is dispatched exactly when a selection was
made. -/
def fillSelectField (select : SelectState) (value : String ⊕ List String) :
    SelectState × List String × Bool :=
  if select.disabled then (select, [], false)
  else
    let possibleValues := possibleValuesOf value
    match exactIdx select possibleValues with
    | some i => ({ select with selectedIndex := (i : Int) }, ["change"], true)
    | none =>
    match (if 0 < select.options.length then subIdx select possibleValues
           else none) with
    | some i => ({ select with selectedIndex := (i : Int) }, ["change"], true)
    | none =>
      if select.selectedIndex ≤ 0 ∧ 1 < select.options.length then
        let idx : Int :=
          if firstIsPlaceholder select ∧ 1 < select.options.length then 1 else 0
        ({ select with selectedIndex := idx }, ["change"], true)
      else (select, [], false)

/-- FormFiller.fillToggleField: skip disabled toggles; change the checked
state and dispatch click then change only when the state differs from the
target; return true in both non-disabled cases. -/
def fillToggleField (input : InputState) (value : Bool) :
    InputState × List String × Bool :=
  if input.disabled then (input, [], false)
  else if input.checked ≠ value then
    ({ input with checked := value }, ["click", "change"], true)
  else (input, [], true)

/-! ## FormFiller.fillField and fillForms

fillField wraps matching and value application in a try/catch.  The
application step acts on the live DOM and may throw; it is modelled by an
arbitrary oracle returning either a boolean or an exception, standing for
the type-dispatch switch together with the fill methods above. -/

/-- Result of a JavaScript computation: a value or a thrown exception. -/
inductive JsOutcome (α : Type) where
  | ok (a : α)
  | exn (msg : String)

/-- FormFiller.fillField: find the best mapping (no mapping yields false),
apply the value through the oracle, and convert any exception into the
return value false, as the catch block does. -/
def fillFieldWith (applyValue : DetectedField → FieldMapping → JsOutcome Bool)
    (mappings : List FieldMapping) (field : DetectedField) : Bool :=
  match findBestMapping mappings field with
  | none => false
  | some m =>
    match applyValue field m with
    | JsOutcome.ok b => b
    | JsOutcome.exn _ => false

/-- FormFiller.fillForms over an already detected field list: count the
fields for which fillField returned true. -/
def fillFormsWith (applyValue : DetectedField → FieldMapping → JsOutcome Bool)
    (mappings : List FieldMapping) (fields : List DetectedField) : Nat :=
  fields.foldl (fun acc f =>
    if fillFieldWith applyValue mappings f then acc + 1 else acc) 0

/-! ## General lemmas about the source folds -/

/-- Concatenation of the lists produced from each element. -/
def concatMap (g : α → List β) : List α → List β
  | [] => []
  | a :: l => g a ++ concatMap g l

theorem foldl_append_eq (g : α → List β) (l : List α) (init : List β) :
    l.foldl (fun acc x => acc ++ g x) init = init ++ concatMap g l := by
  induction l generalizing init with
  | nil => simp [concatMap]
  | cons a t ih => simp [concatMap, ih]

theorem mem_concatMap {g : α → List β} {b : β} {l : List α} :
    b ∈ concatMap g l ↔ ∃ a ∈ l, b ∈ g a := by
  induction l with
  | nil => simp [concatMap]
  | cons a t ih =>
    simp only [concatMap, List.mem_append, ih, List.mem_cons]
    constructor
    · rintro (h | ⟨x, hx, hb⟩)
      · exact ⟨a, Or.inl rfl, h⟩
      · exact ⟨x, Or.inr hx, hb⟩
    · rintro ⟨x, rfl | hx, hb⟩
      · exact Or.inl hb
      · exact Or.inr ⟨x, hx, hb⟩

theorem foldl_push_eq (g : α → Option β) (l : List α) (init : List β) :
    l.foldl (pushDetected g) init = init ++ l.filterMap g := by
  induction l generalizing init with
  | nil => simp
  | cons a t ih =>
    simp only [List.foldl_cons, pushDetected]
    cases h : g a with
    | none => simp [h, ih]
    | some b => simp [h, ih]

theorem foldl_count_eq (p : α → Bool) (l : List α) (n : Nat) :
    l.foldl (fun acc x => if p x then acc + 1 else acc) n
      = n + (l.filter p).length := by
  induction l generalizing n with
  | nil => simp
  | cons a t ih =>
    simp only [List.foldl_cons, List.filter_cons]
    by_cases h : p a
    · simp only [h, if_true, ih, List.length_cons]; omega
    · simp [h, ih]

theorem bestFold_char (sc : FieldMapping → Nat) (ms : List FieldMapping)
    (b : Option FieldMapping) (s : Nat) :
    (bestFold sc ms (b, s) = (b, s) ∧ ∀ m ∈ ms, sc m ≤ s) ∨
    (∃ m ∈ ms, bestFold sc ms (b, s) = (some m, sc m) ∧ s < sc m ∧
      ∀ m2 ∈ ms, sc m2 ≤ sc m) := by
  induction ms generalizing b s with
  | nil => exact Or.inl ⟨rfl, by simp⟩
  | cons a t ih =>
    simp only [bestFold]
    by_cases h : s < sc a
    · rw [if_pos h]
      rcases ih (some a) (sc a) with ⟨heq, hb⟩ | ⟨m, hm, heq, hlt, hb⟩
      · refine Or.inr ⟨a, List.mem_cons_self a t, heq, h, ?_⟩
        intro m2 hm2
        rcases List.mem_cons.mp hm2 with rfl | hmem
        · exact Nat.le_refl _
        · exact hb m2 hmem
      · refine Or.inr ⟨m, List.mem_cons_of_mem a hm, heq, Nat.lt_trans h hlt, ?_⟩
        intro m2 hm2
        rcases List.mem_cons.mp hm2 with rfl | hmem
        · exact Nat.le_of_lt hlt
        · exact hb m2 hmem
    · rw [if_neg h]
      rcases ih b s with ⟨heq, hb⟩ | ⟨m, hm, heq, hlt, hb⟩
      · refine Or.inl ⟨heq, ?_⟩
        intro m2 hm2
        rcases List.mem_cons.mp hm2 with rfl | hmem
        · exact Nat.le_of_not_lt h
        · exact hb m2 hmem
      · refine Or.inr ⟨m, List.mem_cons_of_mem a hm, heq, hlt, ?_⟩
        intro m2 hm2
        rcases List.mem_cons.mp hm2 with rfl | hmem
        · exact Nat.le_trans (Nat.le_of_not_lt h) (Nat.le_of_lt hlt)
        · exact hb m2 hmem

theorem bestByScore_of_pos {sc : FieldMapping → Nat} {ms : List FieldMapping}
    (h : ∃ m ∈ ms, 0 < sc m) :
    ∃ m, bestByScore sc ms = some m ∧ m ∈ ms ∧ 0 < sc m ∧
      ∀ m2 ∈ ms, sc m2 ≤ sc m := by
  rcases bestFold_char sc ms none 0 with ⟨heq, hb⟩ | ⟨m, hm, heq, hlt, hb⟩
  · obtain ⟨m0, hm0, hpos⟩ := h
    exact absurd (hb m0 hm0) (by omega)
  · exact ⟨m, by unfold bestByScore; rw [heq], hm, hlt, hb⟩

/-- The double sum that the tier-3 loop computes: every (keyword, bag entry)
pair contributes one point for containment plus one more for equality. -/
def pairKeywordScore (bag : List String) (kws : List String) : Nat :=
  (kws.map (fun kw =>
    ((bag.map (fun e =>
      if strIncludes e (strLower kw) then
        (if e = strLower kw then 2 else 1)
      else 0)).sum))).sum

theorem inner_score_eq (k : String) (bag : List String) (acc : Nat) :
    bag.foldl (fun acc2 e =>
        if strIncludes e k then (if e = k then acc2 + 2 else acc2 + 1)
        else acc2) acc
      = acc + (bag.map (fun e =>
          if strIncludes e k then (if e = k then 2 else 1) else 0)).sum := by
  induction bag generalizing acc with
  | nil => simp
  | cons e t ih =>
    simp only [List.foldl_cons, List.map_cons, List.sum_cons]
    by_cases h1 : strIncludes e k = true
    · rw [if_pos h1, if_pos h1]
      by_cases h2 : e = k
      · rw [if_pos h2, if_pos h2, ih]; omega
      · rw [if_neg h2, if_neg h2, ih]; omega
    · rw [if_neg h1, if_neg h1, ih]; omega

theorem keywordScore_eq_pair (bag kws : List String) :
    keywordScore bag kws = pairKeywordScore bag kws := by
  suffices h : ∀ acc, kws.foldl (fun acc kw =>
      let k := strLower kw
      bag.foldl (fun acc2 e =>
        if strIncludes e k then (if e = k then acc2 + 2 else acc2 + 1)
        else acc2) acc) acc = acc + pairKeywordScore bag kws by
    simpa using h 0
  induction kws with
  | nil => intro acc; simp [pairKeywordScore]
  | cons kw t ih =>
    intro acc
    simp only [List.foldl_cons, pairKeywordScore, List.map_cons, List.sum_cons]
    rw [inner_score_eq, ih]
    simp only [pairKeywordScore]
    omega

/-! ## Lemmas about the detector -/

theorem detectFieldsInElement_eq (doc : Document) (e : Node) (anc : List Node) :
    detectFieldsInElement doc e anc =
      ((collectElemsList e.children (e :: anc)).filter
          (fun p => fillableTag p.1)).filterMap
        (fun p => createDetectedField doc p.1 p.2) := by
  unfold detectFieldsInElement
  rw [foldl_push_eq, List.nil_append]

/-- The fields produced by scanning every form container. -/
def formFieldsOf (doc : Document) : List DetectedField :=
  concatMap (fun p => detectFieldsInElement doc p.1 p.2)
    (doc.allElems.filter (fun p => decide (tagLower p.1 = "form")))

theorem detectFields_cases (doc : Document) :
    (formFieldsOf doc = [] →
      detectFields doc = detectFieldsInElement doc doc.root []) ∧
    (formFieldsOf doc ≠ [] → detectFields doc = formFieldsOf doc) := by
  have hrw : detectFields doc =
      (if (formFieldsOf doc).length = 0 then
        formFieldsOf doc ++ detectFieldsInElement doc doc.root []
      else formFieldsOf doc) := by
    simp only [detectFields, formFieldsOf]
    rw [foldl_append_eq, List.nil_append]
  constructor <;> intro h
  · rw [hrw, h]; simp
  · rw [hrw, if_neg ?_]
    simpa [List.length_eq_zero] using h

theorem mem_detectFieldsInElement {doc : Document} {e : Node}
    {anc : List Node} {f : DetectedField}
    (h : f ∈ detectFieldsInElement doc e anc) :
    ∃ p : Node × List Node, fillableTag p.1 = true ∧
      createDetectedField doc p.1 p.2 = some f := by
  rw [detectFieldsInElement_eq] at h
  obtain ⟨p, hp, hc⟩ := List.mem_filterMap.mp h
  exact ⟨p, (List.mem_filter.mp hp).2, hc⟩

theorem mem_detectFields {doc : Document} {f : DetectedField}
    (h : f ∈ detectFields doc) :
    ∃ p : Node × List Node, fillableTag p.1 = true ∧
      createDetectedField doc p.1 p.2 = some f := by
  rcases detectFields_cases doc with ⟨hemp, hne⟩
  by_cases hc : formFieldsOf doc = []
  · rw [hemp hc] at h
    exact mem_detectFieldsInElement h
  · rw [hne hc] at h
    unfold formFieldsOf at h
    obtain ⟨p, _, hmem⟩ := mem_concatMap.mp h
    exact mem_detectFieldsInElement hmem

theorem createDetectedField_props {doc : Document} {e : Node}
    {anc : List Node} {f : DetectedField}
    (h : createDetectedField doc e anc = some f) :
    f.element = e ∧ isExcluded e = false ∧ f.type = determineFieldType e ∧
    f.id = (getAttribute e "id").getD "" ∧
    f.name = (getAttribute e "name").getD "" ∧
    f.placeholder = (getAttribute e "placeholder").getD "" ∧
    ¬(f.id = "" ∧ f.name = "" ∧ f.placeholder = "") := by
  unfold createDetectedField at h
  by_cases h1 : isExcluded e = true
  · rw [if_pos h1] at h; cases h
  · rw [if_neg h1] at h
    by_cases h2 : (getAttribute e "id").getD "" = "" ∧
        (getAttribute e "name").getD "" = "" ∧
        (getAttribute e "placeholder").getD "" = ""
    · rw [if_pos h2] at h; cases h
    · rw [if_neg h2] at h
      injection h with h
      subst h
      exact ⟨rfl, Bool.eq_false_iff.mpr h1, rfl, rfl, rfl, rfl, h2⟩

theorem determineFieldType_ne_unknown {e : Node} (h : fillableTag e = true) :
    determineFieldType e ≠ FieldType.UNKNOWN := by
  unfold fillableTag at h
  rw [decide_eq_true_eq] at h
  have htab : ∀ q ∈ inputTypeTable, q.2 ≠ FieldType.UNKNOWN := by decide
  have hin : ∀ o, inputTypeOf o ≠ FieldType.UNKNOWN := by
    intro o
    cases o with
    | none => simp [inputTypeOf]
    | some t =>
      simp only [inputTypeOf]
      cases hf : inputTypeTable.find? (fun p => decide (p.1 = t)) with
      | none => simp
      | some q =>
        simp only [Option.map_some', Option.getD_some]
        exact htab q (List.mem_of_find?_eq_some hf)
  rcases h with h | h | h <;> simp [determineFieldType, h, hin]

/-! ## Concrete documents used to instantiate the detector theorems -/

/-- A plain email input used by the witness document. -/
def inputW : Node := Node.elem "input" [("id", "email"), ("type", "email")] []

/-- A document with one form holding one email input. -/
def docW : Document := ⟨Node.elem "body" [] [Node.elem "form" [] [inputW]]⟩

/-- The detected field the scanner produces for docW. -/
def fldW : DetectedField :=
  ⟨"email", "", FieldType.EMAIL, inputW, none, "",
   [("id", "email"), ("type", "email")]⟩

theorem detectFields_docW : detectFields docW = [fldW] := rfl

/-! ## C8: exclusion invariant of detect -/

/-- C8: for every document, no element whose type attribute is hidden,
submit, button, image or reset, and no element carrying a disabled
attribute, ever appears in the output of detect: every detected field
points at a non-excluded element. -/
theorem c8_exclusion_invariant (doc : Document) (f : DetectedField)
    (h : f ∈ detectFields doc) : isExcluded f.element = false := by
  obtain ⟨p, _, hc⟩ := mem_detectFields h
  obtain ⟨hel, hexc, _⟩ := createDetectedField_props hc
  rw [hel]
  exact hexc

/-- Witness for C8 at the concrete document docW. -/
theorem c8_witness : isExcluded fldW.element = false :=
  c8_exclusion_invariant docW fldW
    (by rw [detectFields_docW]; exact List.mem_cons_self _ _)

/-! ## C9: identity invariant of detect -/

/-- C9: every detected field has at least one non-empty value among its id,
name and placeholder; elements for which all three are empty never make it
into the output of detect. -/
theorem c9_identity_invariant (doc : Document) (f : DetectedField)
    (h : f ∈ detectFields doc) :
    f.id ≠ "" ∨ f.name ≠ "" ∨ f.placeholder ≠ "" := by
  obtain ⟨p, _, hc⟩ := mem_detectFields h
  have hni := (createDetectedField_props hc).2.2.2.2.2.2
  tauto

/-- Witness for C9 at the concrete document docW. -/
theorem c9_witness : fldW.id ≠ "" ∨ fldW.name ≠ "" ∨ fldW.placeholder ≠ "" :=
  c9_identity_invariant docW fldW
    (by rw [detectFields_docW]; exact List.mem_cons_self _ _)

/-! ## C10: detect never yields the UNKNOWN type -/

/-- C10: every field returned by detect has a type other than UNKNOWN:
detection only enumerates input, select and textarea elements, and
determineFieldType maps each of these to a concrete type (inputs with a
missing or unrecognized type attribute default to TEXT). -/
theorem c10_no_unknown_type (doc : Document) (f : DetectedField)
    (h : f ∈ detectFields doc) : f.type ≠ FieldType.UNKNOWN := by
  obtain ⟨p, htag, hc⟩ := mem_detectFields h
  have ht := (createDetectedField_props hc).2.2.1
  rw [ht]
  exact determineFieldType_ne_unknown htag

/-- Witness for C10 at the concrete document docW. -/
theorem c10_witness : fldW.type ≠ FieldType.UNKNOWN :=
  c10_no_unknown_type docW fldW
    (by rw [detectFields_docW]; exact List.mem_cons_self _ _)

/-! ## C3: when the whole-root direct scan runs

The claim says the direct scan runs exactly when no form container exists
anywhere in the root, and that a form whose elements are all excluded does
not trigger it.  The source instead falls back whenever the container scan
produced zero detected fields, so a form holding only excluded elements
does trigger a whole-root scan. -/

/-- A document with one form containing only a hidden (excluded) input,
plus a text input outside the form. -/
def docC3 : Document :=
  ⟨Node.elem "body" []
    [Node.elem "form" [] [Node.elem "input" [("type", "hidden"), ("id", "h")] []],
     Node.elem "input" [("id", "x"), ("type", "text")] []]⟩

/-- C3 counterexample: docC3 has a form container (count one), the only
element inside it is excluded, and yet detect returns the input that lives
outside every form — the whole root was scanned directly even though a
container exists, contradicting the claim. -/
theorem c3_counterexample :
    (docC3.allElems.filter (fun p => decide (tagLower p.1 = "form"))).length
      = 1 ∧
    (detectFields docC3).map (fun f => f.id) = ["x"] := by
  constructor
  · rfl
  · rfl

/-- C3 amended: the whole-root direct scan happens exactly when the
per-container scans produce zero detected fields in total — also when form
containers exist but every element inside them is excluded or lacks
identity; otherwise only the container results are returned. -/
theorem c3_fallback_characterization (doc : Document) :
    (formFieldsOf doc = [] →
      detectFields doc = detectFieldsInElement doc doc.root []) ∧
    (formFieldsOf doc ≠ [] → detectFields doc = formFieldsOf doc) :=
  detectFields_cases doc

/-- Witness for C3: the empty-container branch at docC3 and the nonempty
branch at docW. -/
theorem c3_witness :
    detectFields docC3 = detectFieldsInElement docC3 docC3.root [] ∧
    detectFields docW = formFieldsOf docW :=
  ⟨(c3_fallback_characterization docC3).1 rfl,
   (c3_fallback_characterization docW).2
     (by simp only [show formFieldsOf docW = [fldW] from rfl]
         exact List.cons_ne_nil _ _)⟩

/-! ## C1: tier-3 scoring

The claim describes a per-keyword capped score: a keyword contributes at
most one containment point plus one exactness point no matter how many bag
entries contain it.  The definition below follows that wording so it can
be compared with the score the source computes. -/

/-- Score of a keyword list as the claim words it: one point per keyword
that is a substring of at least one bag entry, plus one more when the
keyword exactly equals such an entry — at most two points per keyword. -/
def claimKeywordScore (bag : List String) (kws : List String) : Nat :=
  (kws.map (fun kw =>
    let k := strLower kw
    if bag.any (fun e => strIncludes e k) then
      (if bag.any (fun e => decide (e = k)) then 2 else 1)
    else 0)).sum

/-- Claim-side score of a mapping. -/
def claimMappingScore (bag : List String) (m : FieldMapping) : Nat :=
  match m.keywords with
  | none => 0
  | some kws => claimKeywordScore bag kws

/-- A field whose keyword bag is [mail, mail2, mail3] (label, placeholder
and title attribute). -/
def fieldC1 : DetectedField :=
  ⟨"", "", FieldType.TEXT,
   Node.elem "input" [("type", "text"), ("title", "mail3")] [],
   some "mail", "mail2", [("type", "text"), ("title", "mail3")]⟩

/-- Tier-3 mapping whose single keyword mail hits all three bag entries. -/
def mA1 : FieldMapping :=
  ⟨none, none, some FieldType.TEXT, some ["mail"], MappingValue.str "A"⟩

/-- Tier-3 mapping with two keywords that each exactly hit one entry. -/
def mB1 : FieldMapping :=
  ⟨none, none, some FieldType.TEXT, some ["mail2", "mail3"],
   MappingValue.str "B"⟩

/-- C1 counterexample: both mappings are tier-3 candidates for fieldC1; the
claimed capped scoring gives mB1 strictly more points than mA1 (4 against
2), so under the claim mB1 must win, yet the source selects mA1 (both score
4 under the per-pair loop and the earlier mapping keeps a tie). -/
theorem c1_counterexample :
    typeMatches [mA1, mB1] fieldC1 = [mA1, mB1] ∧
    findBestMapping [mA1, mB1] fieldC1 = some mA1 ∧
    claimMappingScore (mappingBag fieldC1) mA1 <
      claimMappingScore (mappingBag fieldC1) mB1 := by
  refine ⟨by decide, by decide, by decide⟩

/-- C1 amended: the tier-3 score is the sum over all (keyword, bag entry)
pairs — one point per entry containing the keyword plus one more per entry
equal to it, so a single keyword can contribute more than two points.  The
winner is a candidate of maximal such score, and a mapping whose keywords
match nothing (score zero) never wins this tier. -/
theorem c1_pair_scoring (mappings : List FieldMapping) (field : DetectedField)
    (h1 : idTierMatch mappings field = none)
    (h2 : nameTierMatch mappings field = none)
    (h3 : ∃ m ∈ typeMatches mappings field,
      0 < mappingScore (mappingBag field) m) :
    (∀ bag kws, keywordScore bag kws = pairKeywordScore bag kws) ∧
    (∃ m, findBestMapping mappings field = some m ∧
      m ∈ typeMatches mappings field ∧
      0 < mappingScore (mappingBag field) m ∧
      ∀ m2 ∈ typeMatches mappings field,
        mappingScore (mappingBag field) m2 ≤
          mappingScore (mappingBag field) m) := by
  refine ⟨keywordScore_eq_pair, ?_⟩
  obtain ⟨m, hbest, hmem, hpos, hmax⟩ := bestByScore_of_pos h3
  refine ⟨m, ?_, hmem, hpos, hmax⟩
  have hlen : 0 < (typeMatches mappings field).length := by
    obtain ⟨m0, hm0, _⟩ := h3
    exact List.length_pos.mpr (List.ne_nil_of_mem hm0)
  simp only [findBestMapping, h1, h2]
  rw [if_pos hlen, hbest]

/-- Witness for C1 at the concrete field and mappings above. -/
theorem c1_witness :
    (∀ bag kws, keywordScore bag kws = pairKeywordScore bag kws) ∧
    (∃ m, findBestMapping [mA1, mB1] fieldC1 = some m ∧
      m ∈ typeMatches [mA1, mB1] fieldC1 ∧
      0 < mappingScore (mappingBag fieldC1) m ∧
      ∀ m2 ∈ typeMatches [mA1, mB1] fieldC1,
        mappingScore (mappingBag fieldC1) m2 ≤
          mappingScore (mappingBag fieldC1) m) :=
  c1_pair_scoring [mA1, mB1] fieldC1 (by decide) (by decide)
    ⟨mA1, by decide, by decide⟩

/-! ## C2: the identity-id tier always wins -/

/-- C2: for a field with a non-empty id, whenever the mapping table
contains an id-matching mapping, the resolver returns the first such
mapping in configured order, regardless of any competing keyword mapping
anywhere in the table, and that mapping indeed carries the field id. -/
theorem c2_id_tier_wins (mappings : List FieldMapping) (field : DetectedField)
    (A : FieldMapping) (hid : field.id ≠ "")
    (hA : mappings.find? (fun m => decide (m.id = some field.id)) = some A) :
    findBestMapping mappings field = some A ∧ A.id = some field.id := by
  have h1 : idTierMatch mappings field = some A := by
    unfold idTierMatch
    rw [if_pos hid, hA]
  constructor
  · simp only [findBestMapping, h1]
  · have hp := List.find?_some hA
    exact of_decide_eq_true hp

/-- A text field with id f1 and placeholder hello. -/
def fieldC2 : DetectedField :=
  ⟨"f1", "", FieldType.TEXT,
   Node.elem "input" [("id", "f1"), ("type", "text")] [],
   none, "hello", [("id", "f1"), ("type", "text")]⟩

/-- A keyword mapping that would match fieldC2 by keyword only. -/
def mB2 : FieldMapping :=
  ⟨none, none, some FieldType.TEXT, some ["hello"], MappingValue.str "B"⟩

/-- An id mapping for fieldC2, listed after the keyword mapping. -/
def mA2 : FieldMapping :=
  ⟨some "f1", none, none, none, MappingValue.str "A"⟩

/-- Witness for C2: the keyword mapping comes first in configured order and
the id mapping still wins. -/
theorem c2_witness :
    findBestMapping [mB2, mA2] fieldC2 = some mA2 ∧ mA2.id = some fieldC2.id :=
  c2_id_tier_wins [mB2, mA2] fieldC2 mA2 (by decide) (by decide)

/-! ## C4: the select scenario of the spec -/

/-- The select of the claim: options with empty, Select..., male and female
entries (values equal to texts), nothing matched yet, not disabled. -/
def selC4 : SelectState :=
  ⟨[⟨"", ""⟩, ⟨"Select...", "Select..."⟩, ⟨"male", "male"⟩,
    ⟨"female", "female"⟩], 0, false⟩

/-- C4 counterexample: with mapping value man the source selects index 1
(the Select... entry), not index 2 (male) as the claim states; it does
return true. -/
theorem c4_counterexample :
    (fillSelectField selC4 (Sum.inl "man")).1.selectedIndex = 1 ∧
    ¬(fillSelectField selC4 (Sum.inl "man")).1.selectedIndex = 2 ∧
    (fillSelectField selC4 (Sum.inl "man")).2.2 = true := by
  refine ⟨by decide, by decide, by decide⟩

/-- C4 amended: with mapping value man (no exact or substring match) the
placeholder-skip fallback detects the empty-valued first option as a
placeholder and selects the option at index 1, the Select... entry, and
the operation counts the field as filled. -/
theorem c4_select_scenario :
    fillSelectField selC4 (Sum.inl "man") =
      ({ selC4 with selectedIndex := 1 }, ["change"], true) := by decide

/-! ## C5: guard of the placeholder-skip fallback

The claim states the fallback runs only when no option is currently
selected; the source guard is selectedIndex at most zero, which also
admits a select whose first option (index 0) is the current selection. -/

/-- A select whose first option x is currently selected (index 0). -/
def selC5 : SelectState := ⟨[⟨"x", "x"⟩, ⟨"y", "y"⟩], 0, false⟩

/-- C5 counterexample: an option is currently selected (index 0), both
passes find nothing for value zzz, and the operation still reports the
field as filled — the fallback ran despite a current selection. -/
theorem c5_counterexample :
    exactIdx selC5 ["zzz"] = none ∧ subIdx selC5 ["zzz"] = none ∧
    selC5.selectedIndex = 0 ∧
    (fillSelectField selC5 (Sum.inl "zzz")).2.2 = true := by
  refine ⟨by decide, by decide, by decide, by decide⟩

/-- C5 amended: when the select is enabled and the exact and substring
passes found nothing, the fallback runs exactly when selectedIndex is at
most zero (no selection or the first option selected) and more than one
option exists; it then selects the second option when the first looks like
a placeholder (empty value or text containing select or choose) and the
first option otherwise, always reporting the field as filled; when the
guard fails the field is reported unfilled. -/
theorem c5_fallback_guard (sel : SelectState) (v : String ⊕ List String)
    (hd : sel.disabled = false)
    (h1 : exactIdx sel (possibleValuesOf v) = none)
    (h2 : subIdx sel (possibleValuesOf v) = none) :
    ((sel.selectedIndex ≤ 0 ∧ 1 < sel.options.length) →
      fillSelectField sel v =
        ({ sel with selectedIndex := if firstIsPlaceholder sel then 1 else 0 },
         ["change"], true)) ∧
    (¬(sel.selectedIndex ≤ 0 ∧ 1 < sel.options.length) →
      fillSelectField sel v = (sel, [], false)) := by
  have hsub : (if 0 < sel.options.length then subIdx sel (possibleValuesOf v)
      else none) = none := by
    split <;> simp [h2]
  constructor <;> intro h
  · obtain ⟨hle, hgt⟩ := h
    simp only [fillSelectField, hd, Bool.false_eq_true, if_false, h1, hsub]
    rw [if_pos ⟨hle, hgt⟩]
    by_cases hp : firstIsPlaceholder sel = true
    · rw [if_pos ⟨hp, hgt⟩, if_pos hp]
    · rw [if_neg ?_, if_neg hp]
      intro hc
      exact hp hc.1
  · simp only [fillSelectField, hd, Bool.false_eq_true, if_false, h1, hsub]
    rw [if_neg h]

/-- A select with a placeholder-looking first option and no current
selection. -/
def selW5 : SelectState := ⟨[⟨"", "Choose one"⟩, ⟨"b", "B"⟩], -1, false⟩

/-- Witness for C5: the fallback branch at selW5 selects index 1. -/
theorem c5_witness :
    fillSelectField selW5 (Sum.inl "zzz") =
      ({ selW5 with selectedIndex := if firstIsPlaceholder selW5 then 1 else 0 },
       ["change"], true) :=
  (c5_fallback_guard selW5 (Sum.inl "zzz") rfl (by decide) (by decide)).1
    (by decide)

/-! ## C7: idempotence of toggle filling -/

/-- C7: for a non-disabled checkbox or radio, when the checked state
already equals the target the operation emits no events, leaves the state
unchanged and still returns true; when it differs the state is set and a
click then a change event are emitted. -/
theorem c7_toggle_idempotent (s : InputState) (v : Bool)
    (hd : s.disabled = false) :
    (s.checked = v → fillToggleField s v = (s, [], true)) ∧
    (s.checked ≠ v →
      fillToggleField s v = ({ s with checked := v }, ["click", "change"], true)) := by
  constructor <;> intro h
  · simp [fillToggleField, hd, h]
  · simp [fillToggleField, hd, h]

/-- A checked, enabled checkbox. -/
def toggleW : InputState := ⟨"", true, false, false⟩

/-- Witness for C7: filling the already-checked toggleW with true changes
nothing, emits nothing and returns true. -/
theorem c7_witness : fillToggleField toggleW true = (toggleW, [], true) :=
  (c7_toggle_idempotent toggleW true rfl).1 rfl

/-! ## C6: the fill loop never throws

The application of a value to the live DOM may throw; it is modelled by an
arbitrary oracle.  fillFieldWith converts every exception into the return
value false (the catch block), and fillFormsWith always returns the count
of filled fields, whatever the oracle does. -/

/-- C6: the top-level fill operation is total for every oracle, returns the
count of fields for which the per-field fill returned true, converts an
exception at any field into an unfilled field, and processes every field of
the list — a field list split around any field f contributes its two halves
independently of what happens at f. -/
theorem c6_fill_never_throws
    (applyValue : DetectedField → FieldMapping → JsOutcome Bool)
    (mappings : List FieldMapping) :
    (∀ fields, fillFormsWith applyValue mappings fields =
      (fields.filter (fun f => fillFieldWith applyValue mappings f)).length) ∧
    (∀ f m msg, findBestMapping mappings f = some m →
      applyValue f m = JsOutcome.exn msg →
      fillFieldWith applyValue mappings f = false) ∧
    (∀ fs1 f fs2, fillFormsWith applyValue mappings (fs1 ++ f :: fs2) =
      fillFormsWith applyValue mappings fs1 +
        (if fillFieldWith applyValue mappings f then 1 else 0) +
        fillFormsWith applyValue mappings fs2) := by
  have hcount : ∀ fields, fillFormsWith applyValue mappings fields =
      (fields.filter (fun f => fillFieldWith applyValue mappings f)).length := by
    intro fields
    unfold fillFormsWith
    rw [foldl_count_eq]
    simp
  refine ⟨hcount, fun f m msg h1 h2 => ?_, fun fs1 f fs2 => ?_⟩
  · unfold fillFieldWith
    simp only [h1, h2]
  · rw [hcount, hcount, hcount, List.filter_append, List.filter_cons,
      List.length_append]
    split
    · simp
      omega
    · simp

/-- An oracle that throws on every field. -/
def applyW : DetectedField → FieldMapping → JsOutcome Bool :=
  fun _ _ => JsOutcome.exn "boom"

/-- An id mapping for the C6 witness field. -/
def mapW6 : FieldMapping := ⟨some "a", none, none, none, MappingValue.str "v"⟩

/-- A field matched by mapW6 through the id tier. -/
def fieldW6 : DetectedField :=
  ⟨"a", "", FieldType.TEXT, Node.elem "input" [("id", "a"), ("type", "text")] [],
   none, "", [("id", "a"), ("type", "text")]⟩

/-- Witness for C6: with the always-throwing oracle the one-field fill
returns the filtered count and the thrown field counts as unfilled. -/
theorem c6_witness :
    fillFormsWith applyW [mapW6] [fieldW6] =
      ([fieldW6].filter (fun f => fillFieldWith applyW [mapW6] f)).length ∧
    fillFieldWith applyW [mapW6] fieldW6 = false :=
  ⟨(c6_fill_never_throws applyW [mapW6]).1 [fieldW6],
   (c6_fill_never_throws applyW [mapW6]).2.1 fieldW6 mapW6 "boom"
     (by decide) rfl⟩

end FormFiller
